import Mathlib

/-!
Verification development for the `tw-classname` rewrite engine
(`packages/vite-plugin/src/transform.ts` and `packages/vite-plugin/src/parser.ts`).

The engine locates `tw(...)` call expressions in a parsed syntax tree, extracts
their static string arguments, composes a prefixed class string, and splices the
replacement over the call's source span.

The shallow embedding below translates the engine's own functions
(`extractStringLiteral`, `extractObjectExpression`, `buildClassString`,
`transformCode`) directly from the source.  Parsing is delegated by the source
to an external parser dependency; a minimal parser for the expression fragment
the engine consumes is modelled from the spec (see `parse` below).
-/

namespace TwPlugin

/-- JavaScript whitespace, as used by `String.prototype.trim` and the `\s`
regular-expression class (the ASCII members plus the common Unicode ones). -/
def isJsWs (c : Char) : Bool :=
  c = ' ' || c = '\t' || c = '\n' || c = '\r' ||
  c = '\x0b' || c = '\x0c' || c = ' ' || c = ' ' || c = ' '

/-- `String.prototype.trim`: strip leading and trailing whitespace. -/
def trimJs (s : String) : String :=
  String.mk (((s.data.dropWhile isJsWs).reverse.dropWhile isJsWs).reverse)

/-- Split on runs of whitespace (`split(/\s+/)` applied to a trimmed string):
the maximal non-whitespace runs, in order. -/
def splitWsChars : List Char → List Char → List String
  | [], acc => if acc.isEmpty then [] else [String.mk acc.reverse]
  | c :: cs, acc =>
    if isJsWs c then
      if acc.isEmpty then splitWsChars cs [] else String.mk acc.reverse :: splitWsChars cs []
    else
      splitWsChars cs (c :: acc)

/-- Tokens of a class string: trim, then split on runs of whitespace. -/
def splitWs (s : String) : List String :=
  splitWsChars s.data []

/-- A template literal's static chunk: Babel's `TemplateElement`, carrying the
raw source text and the cooked (escape-interpreted) value. -/
structure TemplateElement where
  raw : String
  cooked : Option String
  deriving Repr, DecidableEq

mutual
/-- Babel-style syntax-tree nodes for the expression fragment the engine
inspects: string literals (cooked value), template literals (expressions and
quasis), object literals, identifiers, and call expressions carrying their
`(start, end)` source offsets (absent when synthesized). -/
inductive Node where
  | stringLit (value : String)
  | templateLit (expressions : List Node) (quasis : List TemplateElement)
  | objectExpr (properties : List ObjectMember)
  | ident (name : String)
  | callExpr (callee : Node) (args : List Node) (start stop : Option Nat)

/-- Members of an object literal: ordinary `ObjectProperty` entries
(key node and value node) or a `SpreadElement`. -/
inductive ObjectMember where
  | objectProperty (key : Node) (value : Node)
  | spreadElement (arg : Node)
end

/-- `extractStringLiteral` from `parser.ts`: a `StringLiteral` yields its
(cooked) value; a `TemplateLiteral` yields its single quasi's raw text when it
has zero expressions and exactly one quasi; everything else (including a
missing node) yields `none`. -/
def extractStringLiteral : Option Node → Option String
  | none => none
  | some (Node.stringLit v) => some v
  | some (Node.templateLit exprs quasis) =>
    match exprs, quasis with
    | [], [q] => some q.raw
    | _, _ => none
  | some _ => none

/-- JavaScript plain-record insertion `result[key] = value`: an existing key is
updated in place (its position is kept), a new key is appended.  Identifier
keys are never integer indices, so `Object.entries` later reads the record back
in exactly this insertion order. -/
def recordInsert (l : List (String × String)) (k v : String) : List (String × String) :=
  if l.any (fun p => p.1 = k) then
    l.map (fun p => if p.1 = k then (k, v) else p)
  else
    l ++ [(k, v)]

/-- Loop body of `extractObjectExpression`: skip non-`ObjectProperty` members,
skip non-identifier keys, keep entries whose value extracts to a string. -/
def extractProps : List ObjectMember → List (String × String) → List (String × String)
  | [], acc => acc
  | ObjectMember.spreadElement _ :: ps, acc => extractProps ps acc
  | ObjectMember.objectProperty k v :: ps, acc =>
    match k with
    | Node.ident name =>
      match extractStringLiteral (some v) with
      | some s => extractProps ps (recordInsert acc name s)
      | none => extractProps ps acc
    | _ => extractProps ps acc

/-- `extractObjectExpression` from `parser.ts`: the ordered key→string record
read off an `ObjectExpression` node; empty for any other node shape. -/
def extractObjectExpression : Option Node → List (String × String)
  | some (Node.objectExpr props) => extractProps props []
  | _ => []

/-- Where a diagnostic is delivered: the plugin context's `error` callback, its
`warn` callback, or direct console logging. -/
inductive Channel where
  | ctxError
  | ctxWarn
  | console
  deriving Repr, DecidableEq

/-- One emitted diagnostic: its delivery channel, message text, and the
`pluginCode` tag when one is attached (console output carries none). -/
structure Diagnostic where
  channel : Channel
  message : String
  pluginCode : Option String
  deriving Repr, DecidableEq

/-- The per-breakpoint prefixing pipeline inlined in `buildClassString`:
`classes.trim().split(/\s+/).map(cls => `${breakpoint}:${cls}`).join(" ")`. -/
def prefixClasses (breakpoint classes : String) : String :=
  String.intercalate " " ((splitWs (trimJs classes)).map (fun cls => breakpoint ++ ":" ++ cls))

/-- The console warning `buildClassString` prints for an unknown breakpoint. -/
def unknownBreakpointMsg (breakpoint : String) (breakpoints : List String) : String :=
  "[tw-classname] Unknown breakpoint '" ++ breakpoint ++ "'. Valid breakpoints: " ++
    String.intercalate ", " breakpoints

/-- Loop of `buildClassString` over `Object.entries(responsiveObj)`:
unknown breakpoints emit a console warning and are skipped, empty (after trim)
class strings are skipped silently, accepted entries append their prefixed
token string to `parts`. -/
def buildParts (breakpoints : List String) :
    List (String × String) → List String → List Diagnostic → List String × List Diagnostic
  | [], parts, warns => (parts, warns)
  | (bp, classes) :: rest, parts, warns =>
    if breakpoints.contains bp then
      if trimJs classes = "" then
        buildParts breakpoints rest parts warns
      else
        buildParts breakpoints rest (parts ++ [prefixClasses bp classes]) warns
    else
      buildParts breakpoints rest parts
        (warns ++ [⟨Channel.console, unknownBreakpointMsg bp breakpoints, none⟩])

/-- `buildClassString` from `parser.ts`: the composed class string (trimmed
base first, then each accepted entry's prefixed tokens, joined by single
spaces), paired with the console warnings it printed along the way. -/
def buildClassString (baseClasses : String) (responsiveObj : List (String × String))
    (breakpoints : List String) : String × List Diagnostic :=
  let r := buildParts breakpoints responsiveObj [trimJs baseClasses] []
  (String.intercalate " " r.1, r.2)

/-- The default allowed breakpoints (`DEFAULT_BREAKPOINTS` in `types.ts`). -/
def DEFAULT_BREAKPOINTS : List String := ["sm", "md", "lg", "xl", "2xl"]

/-- One `MagicString.overwrite` call: replace the span `[start, stop)` of the
original text by `repl`. -/
structure Edit where
  start : Nat
  stop : Nat
  repl : String
  deriving Repr, DecidableEq

mutual
/-- The `CallExpression` nodes of a tree in traversal (pre-order, children
left-to-right) order, as `@babel/traverse` visits them. -/
def collectCalls : Node → List Node
  | Node.callExpr callee args s e =>
    Node.callExpr callee args s e :: (collectCalls callee ++ collectCallsList args)
  | Node.templateLit exprs _ => collectCallsList exprs
  | Node.objectExpr props => collectCallsMembers props
  | _ => []

def collectCallsList : List Node → List Node
  | [] => []
  | n :: ns => collectCalls n ++ collectCallsList ns

def collectCallsMembers : List ObjectMember → List Node
  | [] => []
  | ObjectMember.objectProperty k v :: ps =>
    collectCalls k ++ collectCalls v ++ collectCallsMembers ps
  | ObjectMember.spreadElement a :: ps => collectCalls a ++ collectCallsMembers ps
end

/-- The callee test of the `CallExpression` visitor:
`callee.type === "Identifier" && callee.name === "tw"`. -/
def isTwCallee : Node → Bool
  | Node.ident name => name == "tw"
  | _ => false

/-- Whether a node is a matched `tw(...)` call expression. -/
def isTwCall : Node → Bool
  | Node.callExpr callee _ _ _ => isTwCallee callee
  | _ => false

/-- The responsive object of a call: `args.length > 1 ?
extractObjectExpression(args[1]) : {}`, given the arguments after the first. -/
def responsiveOf : List Node → List (String × String)
  | [] => []
  | a1 :: _ => extractObjectExpression (some a1)

/-- The body of the `CallExpression` visitor in `transformCode`, for one call
node: the diagnostics it emits and the overwrite it performs, if any.
A call whose callee is not the bare identifier `tw` does nothing; a `tw` call
with no arguments warns `MISSING_ARGUMENTS`; one whose first argument is not a
static string warns `INVALID_BASE_CLASSES`; otherwise the class string is
composed and, when both offsets are present, the call's span is overwritten
with the composed string wrapped in double quotes.  (The opt-in `debug`
console tracing is not a diagnostic and is not modelled.) -/
def processCall (id : String) (breakpoints : List String) : Node → List Diagnostic × Option Edit
  | Node.callExpr callee args s e =>
    if isTwCallee callee then
      match args with
      | [] =>
        ([⟨Channel.ctxWarn, "tw() called without arguments at " ++ id,
            some "MISSING_ARGUMENTS"⟩], none)
      | a0 :: rest =>
        match extractStringLiteral (some a0) with
        | none =>
          ([⟨Channel.ctxWarn, "tw() first argument must be a string literal at " ++ id,
              some "INVALID_BASE_CLASSES"⟩], none)
        | some baseClasses =>
          let built := buildClassString baseClasses (responsiveOf rest) breakpoints
          match s, e with
          | some s', some e' =>
            (built.2, some ⟨s', e', "\"" ++ built.1 ++ "\""⟩)
          | _, _ => (built.2, none)
    else ([], none)
  | _ => ([], none)

/-- Apply a list of overwrites (ascending, disjoint spans — as `MagicString`
yields for the engine's non-overlapping edits) to the characters of the
original text, from position `pos` on. -/
def applyEdits (code : List Char) : Nat → List Edit → List Char
  | pos, [] => code.drop pos
  | pos, e :: rest =>
    (code.drop pos).take (e.start - pos) ++ e.repl.data ++ applyEdits code e.stop rest

/-- A successful transform result; the source-map artifact accompanying the
rewritten code in the source is not modelled. -/
structure TransformResult where
  code : String
  deriving Repr, DecidableEq

/-- The post-parse phase of `transformCode`: visit every call expression,
collect diagnostics and overwrites, and return the rewritten text when at
least one overwrite happened (`hasTransforms`), `null` otherwise. -/
def transformCodeAst (code id : String) (breakpoints : List String) (ast : Node) :
    Option TransformResult × List Diagnostic :=
  let results := (collectCalls ast).map (processCall id breakpoints)
  let diags := (results.map Prod.fst).flatten
  let edits := results.filterMap Prod.snd
  if edits.isEmpty then (none, diags)
  else (some ⟨String.mk (applyEdits code.data 0 edits)⟩, diags)

/-- Escape decoding for quoted strings and template cooked values: the
single-character JavaScript escapes; any other escaped character stands for
itself. -/
def decodeEscape (c : Char) : Char :=
  if c = 'n' then '\n'
  else if c = 't' then '\t'
  else if c = 'r' then '\r'
  else if c = 'b' then '\x08'
  else if c = 'f' then '\x0c'
  else if c = 'v' then '\x0b'
  else if c = '0' then '\x00'
  else c

def isIdentStart (c : Char) : Bool := c.isAlpha || c = '_' || c = '$'

def isIdentCont (c : Char) : Bool := c.isAlphanum || c = '_' || c = '$'

/-- Skip insignificant whitespace, advancing the byte position. -/
def skipWs : List Char → Nat → List Char × Nat
  | [], p => ([], p)
  | c :: cs, p => if isJsWs c then skipWs cs (p + 1) else (c :: cs, p)

/-- Scan the remaining characters of an identifier (accumulator holds the
characters read so far, reversed). -/
def scanIdentCont : List Char → Nat → List Char → List Char × List Char × Nat
  | [], p, acc => (acc.reverse, [], p)
  | c :: cs, p, acc =>
    if isIdentCont c then scanIdentCont cs (p + 1) (c :: acc)
    else (acc.reverse, c :: cs, p)

/-- Scan a double-quoted string body (opening quote already consumed),
interpreting escapes into the cooked value. -/
def scanStringBody : List Char → Nat → List Char → Except String (String × List Char × Nat)
  | [], _, _ => Except.error "Unterminated string constant"
  | c :: cs, p, acc =>
    if c = '"' then Except.ok (String.mk acc.reverse, cs, p + 1)
    else if c = '\\' then
      match cs with
      | [] => Except.error "Unterminated string constant"
      | c2 :: cs2 => scanStringBody cs2 (p + 2) (decodeEscape c2 :: acc)
    else scanStringBody cs (p + 1) (c :: acc)

/-- Scan a template-literal body (opening backtick, character 96, already
consumed), accumulating both the raw source text and the cooked value.
Substitutions are rejected (the engine's claims never exercise them). -/
def scanTemplateBody : List Char → Nat → List Char → List Char →
    Except String (String × String × List Char × Nat)
  | [], _, _, _ => Except.error "Unterminated template"
  | c :: cs, p, raw, cooked =>
    if c.toNat = 96 then
      Except.ok (String.mk raw.reverse, String.mk cooked.reverse, cs, p + 1)
    else if c = '\\' then
      match cs with
      | [] => Except.error "Unterminated template"
      | c2 :: cs2 => scanTemplateBody cs2 (p + 2) (c2 :: c :: raw) (decodeEscape c2 :: cooked)
    else if c = '$' then
      match cs with
      | '{' :: _ => Except.error "Template substitutions are not supported"
      | _ => scanTemplateBody cs (p + 1) (c :: raw) (c :: cooked)
    else scanTemplateBody cs (p + 1) (c :: raw) (c :: cooked)

mutual
/-- Modelled from the spec: §4.1 delegates parsing to an external parser (the
repository uses a third-party parser dependency, not part of this repository),
producing a tree whose nodes carry `(start, end)` offsets into the original
text.  This is a recursive-descent parser for the expression fragment the
engine consumes: double-quoted string literals with escapes, template literals
(raw and cooked chunks), object literals with identifier keys, identifiers,
and call expressions `ident(arg, ...)` carrying their source span. -/
def parseExprFuel : Nat → List Char → Nat → Except String (Node × List Char × Nat)
  | 0, _, _ => Except.error "Parser ran out of fuel"
  | Nat.succ fuel, cs0, p0 =>
    let st := skipWs cs0 p0
    match st.1, st.2 with
    | [], _ => Except.error "Unexpected end of input"
    | c :: rest, p =>
      if c = '"' then
        match scanStringBody rest (p + 1) [] with
        | Except.error m => Except.error m
        | Except.ok (v, cs2, p2) => Except.ok (Node.stringLit v, cs2, p2)
      else if c.toNat = 96 then
        match scanTemplateBody rest (p + 1) [] [] with
        | Except.error m => Except.error m
        | Except.ok (raw, cooked, cs2, p2) =>
          Except.ok (Node.templateLit [] [⟨raw, some cooked⟩], cs2, p2)
      else if c = '{' then
        parseObjectFuel fuel rest (p + 1)
      else if isIdentStart c then
        match scanIdentCont rest (p + 1) [c] with
        | (nameChars, cs2, p2) =>
          let st3 := skipWs cs2 p2
          match st3.1, st3.2 with
          | '(' :: cs4, p3 =>
            match parseArgsFuel fuel cs4 (p3 + 1) with
            | Except.error m => Except.error m
            | Except.ok (args, cs5, p5) =>
              Except.ok (Node.callExpr (Node.ident (String.mk nameChars)) args (some p) (some p5),
                cs5, p5)
          | cs3, p3 => Except.ok (Node.ident (String.mk nameChars), cs3, p3)
      else Except.error ("Unexpected token at position " ++ toString p)
  termination_by structural fuel => fuel

/-- Call-argument list, after the opening parenthesis; consumes the closing
parenthesis and reports the position just past it. -/
def parseArgsFuel : Nat → List Char → Nat → Except String (List Node × List Char × Nat)
  | 0, _, _ => Except.error "Parser ran out of fuel"
  | Nat.succ fuel, cs0, p0 =>
    let st := skipWs cs0 p0
    match st.1, st.2 with
    | ')' :: cs2, p => Except.ok ([], cs2, p + 1)
    | cs, p =>
      match parseExprFuel fuel cs p with
      | Except.error m => Except.error m
      | Except.ok (arg, cs2, p2) =>
        let st3 := skipWs cs2 p2
        match st3.1, st3.2 with
        | ',' :: cs4, p3 =>
          match parseArgsFuel fuel cs4 (p3 + 1) with
          | Except.error m => Except.error m
          | Except.ok (args, cs5, p5) => Except.ok (arg :: args, cs5, p5)
        | ')' :: cs4, p3 => Except.ok ([arg], cs4, p3 + 1)
        | _, p3 => Except.error ("Unexpected token at position " ++ toString p3)
  termination_by structural fuel => fuel

/-- Object literal, after the opening brace; members are `identifier : expr`
pairs separated by commas. -/
def parseObjectFuel : Nat → List Char → Nat → Except String (Node × List Char × Nat)
  | 0, _, _ => Except.error "Parser ran out of fuel"
  | Nat.succ fuel, cs0, p0 =>
    let st := skipWs cs0 p0
    match st.1, st.2 with
    | '}' :: cs2, p => Except.ok (Node.objectExpr [], cs2, p + 1)
    | cs, p =>
      match parseMembersFuel fuel cs p with
      | Except.error m => Except.error m
      | Except.ok (ms, cs2, p2) => Except.ok (Node.objectExpr ms, cs2, p2)
  termination_by structural fuel => fuel

/-- Nonempty object-member list; consumes the closing brace. -/
def parseMembersFuel : Nat → List Char → Nat → Except String (List ObjectMember × List Char × Nat)
  | 0, _, _ => Except.error "Parser ran out of fuel"
  | Nat.succ fuel, cs0, p0 =>
    let st := skipWs cs0 p0
    match st.1, st.2 with
    | [], _ => Except.error "Unexpected end of input"
    | c :: rest, p =>
      if isIdentStart c then
        match scanIdentCont rest (p + 1) [c] with
        | (nameChars, cs2, p2) =>
          let st3 := skipWs cs2 p2
          match st3.1, st3.2 with
          | ':' :: cs4, p3 =>
            match parseExprFuel fuel cs4 (p3 + 1) with
            | Except.error m => Except.error m
            | Except.ok (v, cs5, p5) =>
              let st6 := skipWs cs5 p5
              match st6.1, st6.2 with
              | ',' :: cs7, p6 =>
                match parseMembersFuel fuel cs7 (p6 + 1) with
                | Except.error m => Except.error m
                | Except.ok (ms, cs8, p8) =>
                  Except.ok (ObjectMember.objectProperty (Node.ident (String.mk nameChars)) v :: ms,
                    cs8, p8)
              | '}' :: cs7, p6 =>
                Except.ok ([ObjectMember.objectProperty (Node.ident (String.mk nameChars)) v],
                  cs7, p6 + 1)
              | _, p6 => Except.error ("Unexpected token at position " ++ toString p6)
          | _, p3 => Except.error ("Unexpected token at position " ++ toString p3)
      else Except.error ("Unexpected token at position " ++ toString p)
  termination_by structural fuel => fuel
end

/-- Modelled from the spec: `parse(text) → SyntaxTree` or a syntax-error
diagnostic (§4.1) — the whole input must form one expression. -/
def parse (code : String) : Except String Node :=
  match parseExprFuel (code.length + 1) code.data 0 with
  | Except.error m => Except.error m
  | Except.ok (n, cs, p) =>
    let st := skipWs cs p
    match st.1, st.2 with
    | [], _ => Except.ok n
    | _, p2 => Except.error ("Unexpected token at position " ++ toString p2)

/-- `transformCode` from `transform.ts`: parse the input (a parse failure is
reported once through the context's `error` callback with `PARSE_ERROR`, and
`null` is returned with no edits applied), then rewrite every located `tw`
call as in `transformCodeAst`. -/
def transformCode (code id : String) (breakpoints : List String) (debug : Bool) :
    Option TransformResult × List Diagnostic :=
  match parse code with
  | Except.error m =>
    (none, [⟨Channel.ctxError, "Failed to parse " ++ id ++ ": " ++ m, some "PARSE_ERROR"⟩])
  | Except.ok ast => transformCodeAst code id breakpoints ast

/-- The composition rule in the spec's words (§4.3 steps 4–5): the trimmed
base string followed by, for each entry whose name is allowed and whose value
does not trim to empty, in mapping order, the value's whitespace-separated
tokens each prefixed with the entry's name and a colon, all segments joined
with single spaces.  To be compared with `buildClassString`. -/
def composeSpec (base : String) (obj : List (String × String)) (bps : List String) : String :=
  String.intercalate " "
    (trimJs base ::
      (obj.filter (fun p => bps.contains p.1 && !(trimJs p.2 == ""))).map
        (fun p =>
          String.intercalate " "
            ((splitWs (trimJs p.2)).map (fun tok => p.1 ++ ":" ++ tok))))

/-- The characters of the span `[a, b)` of a text. -/
def slice (code : List Char) (a b : Nat) : List Char :=
  (code.drop a).take (b - a)

/-- Node shapes accepted by `extractStringLiteral`. -/
def isStringish : Node → Bool
  | Node.stringLit _ => true
  | Node.templateLit _ _ => true
  | _ => false

theorem buildParts_fst (bps : List String) (obj : List (String × String)) :
    ∀ (parts : List String) (warns : List Diagnostic),
      (buildParts bps obj parts warns).1 =
        parts ++ (obj.filter (fun p => bps.contains p.1 && !(trimJs p.2 == ""))).map
          (fun p => prefixClasses p.1 p.2) := by
  induction obj with
  | nil => intro parts warns; simp [buildParts]
  | cons hd tl ih =>
    intro parts warns
    obtain ⟨bp, classes⟩ := hd
    by_cases h1 : bp ∈ bps
    · by_cases h2 : trimJs classes = ""
      · simp [buildParts, h1, h2, ih]
      · simp [buildParts, h1, h2, ih]
    · simp [buildParts, h1, ih]

theorem buildParts_snd (bps : List String) (obj : List (String × String)) :
    ∀ (parts : List String) (warns : List Diagnostic),
      (buildParts bps obj parts warns).2 =
        warns ++ (obj.filter (fun p => !bps.contains p.1)).map
          (fun p => (⟨Channel.console, unknownBreakpointMsg p.1 bps, none⟩ : Diagnostic)) := by
  induction obj with
  | nil => intro parts warns; simp [buildParts]
  | cons hd tl ih =>
    intro parts warns
    obtain ⟨bp, classes⟩ := hd
    by_cases h1 : bp ∈ bps
    · by_cases h2 : trimJs classes = ""
      · simp [buildParts, h1, h2, ih]
      · simp [buildParts, h1, h2, ih]
    · simp [buildParts, h1, ih]

/-- Claim C1: for every statically extracted base string and variant mapping,
the composed string is the trimmed base followed by, for each accepted variant
in mapping order, its value's whitespace-separated tokens prefixed with the
variant name and a colon, all joined with single spaces — and Scenario B
composes to `"flex items-center md:justify-between md:gap-4 lg:gap-6 lg:p-8"`. -/
theorem c1_compose :
    (∀ (base : String) (obj : List (String × String)) (bps : List String),
        (buildClassString base obj bps).1 = composeSpec base obj bps)
    ∧ transformCode
        "tw(\"flex items-center\", \x7b md: \"justify-between gap-4\", lg: \"gap-6 p-8\" \x7d)"
        "f.ts" DEFAULT_BREAKPOINTS false =
      (some ⟨"\"flex items-center md:justify-between md:gap-4 lg:gap-6 lg:p-8\""⟩, []) := by
  constructor
  · intro base obj bps
    simp [buildClassString, composeSpec, buildParts_fst, prefixClasses]
  · rfl

/-- Claim C3: `extractStringLiteral` yields the value of a quoted string
literal; a template literal yields a string exactly when it has zero
expressions and one quasi; any other node shape (and a missing node) yields
`none`. -/
theorem c3_extract_shapes :
    (∀ v, extractStringLiteral (some (Node.stringLit v)) = some v)
    ∧ (∀ (exprs : List Node) (quasis : List TemplateElement),
        (extractStringLiteral (some (Node.templateLit exprs quasis))).isSome = true ↔
          exprs = [] ∧ quasis.length = 1)
    ∧ extractStringLiteral none = none
    ∧ (∀ n : Node, isStringish n = false → extractStringLiteral (some n) = none) := by
  refine ⟨fun v => rfl, ?_, rfl, ?_⟩
  · intro exprs quasis
    cases exprs with
    | nil =>
      cases quasis with
      | nil => simp [extractStringLiteral]
      | cons q qs =>
        cases qs with
        | nil => simp [extractStringLiteral]
        | cons q2 qs2 => simp [extractStringLiteral]
    | cons x xs =>
      cases quasis with
      | nil => simp [extractStringLiteral]
      | cons q qs => simp [extractStringLiteral]
  · intro n h
    cases n <;> simp_all [isStringish, extractStringLiteral]

theorem c3_witness :
    extractStringLiteral (some (Node.ident "x")) = none ∧
    (extractStringLiteral (some (Node.templateLit [] [⟨"a", some "a"⟩]))).isSome = true :=
  ⟨c3_extract_shapes.2.2.2 (Node.ident "x") rfl,
   (c3_extract_shapes.2.1 [] [⟨"a", some "a"⟩]).mpr ⟨rfl, rfl⟩⟩

/-- Claim C5: whenever the input fails to parse, the engine reports the
failure exactly once through the context's error callback (`PARSE_ERROR`) and
returns the no-op/failure result with no edits applied. -/
theorem c5_parse_failure_fatal (code id : String) (bps : List String) (dbg : Bool) (m : String)
    (h : parse code = Except.error m) :
    transformCode code id bps dbg =
      (none, [⟨Channel.ctxError, "Failed to parse " ++ id ++ ": " ++ m, some "PARSE_ERROR"⟩]) := by
  simp [transformCode, h]

theorem c5_witness :
    transformCode "tw(" "f.ts" DEFAULT_BREAKPOINTS false =
      (none, [⟨Channel.ctxError, "Failed to parse f.ts: Unexpected end of input",
        some "PARSE_ERROR"⟩]) :=
  c5_parse_failure_fatal "tw(" "f.ts" DEFAULT_BREAKPOINTS false "Unexpected end of input" rfl

/-- Claim C7: entries declared in the order `md`, `lg` compose in that same
order — the `md:`-prefixed segment before the `lg:`-prefixed segment — for
every allowed-variant list containing both, regardless of that list's order. -/
theorem c7_order (base v1 v2 : String) (bps : List String)
    (h1 : "md" ∈ bps) (h2 : "lg" ∈ bps)
    (h3 : ¬ trimJs v1 = "") (h4 : ¬ trimJs v2 = "") :
    (buildClassString base
      (extractObjectExpression (some (Node.objectExpr
        [ObjectMember.objectProperty (Node.ident "md") (Node.stringLit v1),
         ObjectMember.objectProperty (Node.ident "lg") (Node.stringLit v2)]))) bps).1 =
    String.intercalate " " [trimJs base, prefixClasses "md" v1, prefixClasses "lg" v2] := by
  have hobj : extractObjectExpression (some (Node.objectExpr
      [ObjectMember.objectProperty (Node.ident "md") (Node.stringLit v1),
       ObjectMember.objectProperty (Node.ident "lg") (Node.stringLit v2)])) =
      [("md", v1), ("lg", v2)] := by
    simp [extractObjectExpression, extractProps, extractStringLiteral, recordInsert]
  rw [hobj]
  simp [buildClassString, buildParts, h1, h2, h3, h4]

theorem c7_witness :
    (buildClassString "a"
      (extractObjectExpression (some (Node.objectExpr
        [ObjectMember.objectProperty (Node.ident "md") (Node.stringLit "x"),
         ObjectMember.objectProperty (Node.ident "lg") (Node.stringLit "y")]))) ["lg", "md"]).1 =
    String.intercalate " " [trimJs "a", prefixClasses "md" "x", prefixClasses "lg" "y"] :=
  c7_order "a" "x" "y" ["lg", "md"] (by decide) (by decide) (by decide) (by decide)

/-- Claim C10: `extractStringLiteral` returns the cooked value for a quoted
string literal but the raw source text for a template literal's single chunk,
so the source escape `\n` contributes a newline character when quoted but the
two characters backslash-`n` in a template. -/
theorem c10_cooked_vs_raw :
    (∀ v, extractStringLiteral (some (Node.stringLit v)) = some v)
    ∧ (∀ (raw : String) (cooked : Option String),
        extractStringLiteral (some (Node.templateLit [] [⟨raw, cooked⟩])) = some raw)
    ∧ parse "\"a\\nb\"" = Except.ok (Node.stringLit "a\nb")
    ∧ parse "`a\\nb`" = Except.ok (Node.templateLit [] [⟨"a\\nb", some "a\nb"⟩])
    ∧ ("a\nb" : String) ≠ "a\\nb" := by
  refine ⟨fun v => rfl, fun raw cooked => rfl, by rfl, by rfl, by decide⟩

theorem buildClassString_snd_mem (b : String) (o : List (String × String)) (bps : List String)
    (d : Diagnostic) (hd : d ∈ (buildClassString b o bps).2) :
    ∃ bp, d = ⟨Channel.console, unknownBreakpointMsg bp bps, none⟩ := by
  have hd' : d ∈ (buildParts bps o [trimJs b] []).2 := hd
  rw [buildParts_snd] at hd'
  simp only [List.nil_append, List.mem_map, List.mem_filter] at hd'
  obtain ⟨p, hp, rfl⟩ := hd'
  exact ⟨p.1, rfl⟩

theorem processCall_diags (id : String) (bps : List String) (n : Node) :
    ∀ d ∈ (processCall id bps n).1,
      d.channel = Channel.ctxWarn ∨
        ∃ bp, d = ⟨Channel.console, unknownBreakpointMsg bp bps, none⟩ := by
  intro d hd
  cases n with
  | callExpr callee args s e =>
    by_cases hc : isTwCallee callee = true
    · cases args with
      | nil =>
        simp [processCall, hc] at hd
        exact Or.inl (by rw [hd])
      | cons a0 rest =>
        cases hx : extractStringLiteral (some a0) with
        | none =>
          simp [processCall, hc, hx] at hd
          exact Or.inl (by rw [hd])
        | some base =>
          have hmem : d ∈ (buildClassString base (responsiveOf rest) bps).2 := by
            cases s <;> cases e <;> simpa [processCall, hc, hx] using hd
          exact Or.inr (buildClassString_snd_mem base (responsiveOf rest) bps d hmem)
    · simp [processCall, hc] at hd
  | stringLit v => simp [processCall] at hd
  | templateLit a b => simp [processCall] at hd
  | objectExpr ps => simp [processCall] at hd
  | ident nm => simp [processCall] at hd

theorem transformCodeAst_snd (code id : String) (bps : List String) (ast : Node) :
    (transformCodeAst code id bps ast).2 =
      (((collectCalls ast).map (processCall id bps)).map Prod.fst).flatten := by
  unfold transformCodeAst
  dsimp only
  split <;> rfl

/-- Claim C2 is false on the code: on `tw("base", { xxl: "y" })` with the
default configuration, the `UNKNOWN_VARIANT` diagnostic for `xxl` is printed
directly to the console, not delivered through the caller-supplied
warning/error callbacks. -/
theorem c2_counterexample :
    ¬ (∀ d ∈ (transformCode "tw(\"base\", \x7b xxl: \"y\" \x7d)" "f.ts" DEFAULT_BREAKPOINTS false).2,
        d.channel = Channel.ctxWarn ∨ d.channel = Channel.ctxError) := by
  decide

/-- Claim C2 (amended): every diagnostic the engine produces is delivered
through the caller-supplied callbacks except the unknown-variant warning,
which is logged directly to the console: each diagnostic is either on the
error-callback channel, on the warning-callback channel, or is exactly a
console unknown-breakpoint warning. -/
theorem c2_amended_channels (code id : String) (bps : List String) (dbg : Bool) :
    ∀ d ∈ (transformCode code id bps dbg).2,
      d.channel = Channel.ctxError ∨ d.channel = Channel.ctxWarn ∨
        ∃ bp, d = ⟨Channel.console, unknownBreakpointMsg bp bps, none⟩ := by
  intro d hd
  unfold transformCode at hd
  cases hp : parse code with
  | error m =>
    rw [hp] at hd
    simp at hd
    exact Or.inl (by rw [hd])
  | ok ast =>
    rw [hp] at hd
    rw [transformCodeAst_snd] at hd
    simp only [List.mem_flatten, List.mem_map] at hd
    obtain ⟨l, ⟨r, ⟨n, hn, rfl⟩, rfl⟩, hdl⟩ := hd
    rcases processCall_diags id bps n d hdl with h | h
    · exact Or.inr (Or.inl h)
    · exact Or.inr (Or.inr h)

theorem c2_amended_witness :
    (⟨Channel.ctxWarn, "tw() called without arguments at f.ts",
        some "MISSING_ARGUMENTS"⟩ : Diagnostic).channel = Channel.ctxError ∨
    (⟨Channel.ctxWarn, "tw() called without arguments at f.ts",
        some "MISSING_ARGUMENTS"⟩ : Diagnostic).channel = Channel.ctxWarn ∨
    ∃ bp, (⟨Channel.ctxWarn, "tw() called without arguments at f.ts",
        some "MISSING_ARGUMENTS"⟩ : Diagnostic) =
      ⟨Channel.console, unknownBreakpointMsg bp DEFAULT_BREAKPOINTS, none⟩ :=
  c2_amended_channels "tw()" "f.ts" DEFAULT_BREAKPOINTS false
    ⟨Channel.ctxWarn, "tw() called without arguments at f.ts", some "MISSING_ARGUMENTS"⟩
    (by decide)

theorem dropTake_isInfix {α : Type} (l : List α) (m k : Nat) : (l.drop m).take k <:+: l :=
  (List.take_prefix k (l.drop m)).isInfix.trans (List.drop_suffix m l).isInfix

theorem dropTake_isInfix_take {α : Type} (l : List α) (m k n : Nat) (h : m + k ≤ n) :
    (l.drop m).take k <:+: l.take n := by
  rw [List.take_drop]
  exact (List.drop_suffix m (l.take (m + k))).isInfix.trans
    (List.take_prefix_take_left l h).isInfix

theorem slice_preserved (code : List Char) (edits : List Edit) :
    ∀ (pos a b : Nat), pos ≤ a → a ≤ b →
      (∀ ed ∈ edits, ed.stop ≤ a ∨ b ≤ ed.start) →
      slice code a b <:+: applyEdits code pos edits := by
  induction edits with
  | nil =>
    intro pos a b hpa hab _
    simp only [applyEdits, slice]
    have hdd : code.drop a = (code.drop pos).drop (a - pos) := by
      rw [List.drop_drop]
      congr 1
      omega
    rw [hdd]
    exact dropTake_isInfix _ _ _
  | cons e rest ih =>
    intro pos a b hpa hab hdisj
    simp only [applyEdits]
    rcases hdisj e (List.mem_cons_self e rest) with he | he
    · have ihh := ih e.stop a b he hab (fun ed hm => hdisj ed (List.mem_cons_of_mem e hm))
      exact ihh.trans (List.suffix_append _ _).isInfix
    · have hdd : code.drop a = (code.drop pos).drop (a - pos) := by
        rw [List.drop_drop]
        congr 1
        omega
      have h1 : slice code a b <:+: (code.drop pos).take (e.start - pos) := by
        simp only [slice]
        rw [hdd]
        exact dropTake_isInfix_take _ _ _ _ (by omega)
      refine h1.trans ?_
      rw [List.append_assoc]
      exact (List.prefix_append _ _).isInfix

/-- Claim C4 is false as stated: on `tw(tw("a"), { md: "x" })`, the outer
matched call's first argument is not a static string, so it gets exactly one
INVALID_BASE_CLASSES warning and no edit — but the nested inner call is
rewritten, so the outer call's original text is not preserved verbatim in the
output (which is `tw("a", { md: "x" })`). -/
theorem c4_counterexample :
    transformCode "tw(tw(\"a\"), \x7b md: \"x\" \x7d)" "f.ts" DEFAULT_BREAKPOINTS false =
      (some ⟨"tw(\"a\", \x7b md: \"x\" \x7d)"⟩,
        [⟨Channel.ctxWarn, "tw() first argument must be a string literal at f.ts",
          some "INVALID_BASE_CLASSES"⟩])
    ∧ ¬ ("tw(tw(\"a\"), \x7b md: \"x\" \x7d)".data <:+: "tw(\"a\", \x7b md: \"x\" \x7d)".data) := by
  constructor
  · rfl
  · decide

/-- Claim C4 (amended): a matched call whose first argument is not a static
string gets exactly one INVALID_BASE_CLASSES warning and no edit, and a
zero-argument matched call gets exactly one MISSING_ARGUMENTS warning and no
edit; any source span disjoint from every applied edit — in particular such a
skipped call's span when no other matched call is nested inside it — appears
verbatim (as a contiguous run) in the rewritten output.  Preservation can
fail only when an edit overlaps the skipped call's span, i.e. when a nested
matched call is rewritten inside it. -/
theorem c4_invalid_base (id : String) (bps : List String) :
    (∀ (a0 : Node) (rest : List Node) (s e : Option Nat),
        extractStringLiteral (some a0) = none →
        processCall id bps (Node.callExpr (Node.ident "tw") (a0 :: rest) s e) =
          ([⟨Channel.ctxWarn, "tw() first argument must be a string literal at " ++ id,
              some "INVALID_BASE_CLASSES"⟩], none))
    ∧ (∀ (s e : Option Nat),
        processCall id bps (Node.callExpr (Node.ident "tw") [] s e) =
          ([⟨Channel.ctxWarn, "tw() called without arguments at " ++ id,
              some "MISSING_ARGUMENTS"⟩], none))
    ∧ (∀ (code : List Char) (edits : List Edit) (a b : Nat), a ≤ b →
        (∀ ed ∈ edits, ed.stop ≤ a ∨ b ≤ ed.start) →
        slice code a b <:+: applyEdits code 0 edits) := by
  refine ⟨?_, ?_, ?_⟩
  · intro a0 rest s e hx
    simp [processCall, isTwCallee, hx]
  · intro s e
    simp [processCall, isTwCallee]
  · intro code edits a b hab hdisj
    exact slice_preserved code edits 0 a b (Nat.zero_le a) hab hdisj

theorem c4_witness :
    processCall "f.ts" DEFAULT_BREAKPOINTS
        (Node.callExpr (Node.ident "tw")
          [Node.ident "someVariable",
           Node.objectExpr [ObjectMember.objectProperty (Node.ident "md") (Node.stringLit "x")]]
          (some 0) (some 26)) =
      ([⟨Channel.ctxWarn, "tw() first argument must be a string literal at f.ts",
          some "INVALID_BASE_CLASSES"⟩], none)
    ∧ slice "ab tw(x) cd".data 0 3 <:+: applyEdits "ab tw(x) cd".data 0 [⟨3, 8, "\"y\""⟩] :=
  ⟨(c4_invalid_base "f.ts" DEFAULT_BREAKPOINTS).1 (Node.ident "someVariable") _ _ _ rfl,
   (c4_invalid_base "f.ts" DEFAULT_BREAKPOINTS).2.2 _ _ 0 3 (by decide) (by decide)⟩

theorem processCall_not_tw (id : String) (bps : List String) (n : Node)
    (h : isTwCall n = false) : processCall id bps n = ([], none) := by
  cases n <;> simp_all [processCall, isTwCall]

theorem transformCodeAst_no_edits (code id : String) (bps : List String) (ast : Node)
    (h : ∀ n ∈ collectCalls ast, (processCall id bps n).2 = none) :
    (transformCodeAst code id bps ast).1 = none := by
  have he : ((collectCalls ast).map (processCall id bps)).filterMap Prod.snd = [] := by
    rw [List.filterMap_eq_nil_iff]
    intro x hx
    obtain ⟨n, hn, rfl⟩ := List.mem_map.mp hx
    exact h n hn
  unfold transformCodeAst
  simp [he]

theorem transformCodeAst_no_tw (code id : String) (bps : List String) (ast : Node)
    (h : ∀ n ∈ collectCalls ast, isTwCall n = false) :
    (transformCodeAst code id bps ast).1 = none :=
  transformCodeAst_no_edits code id bps ast
    (fun n hn => by rw [processCall_not_tw id bps n (h n hn)])

/-- Claim C6 is false as stated: on `tw(tw("a"))`, the engine produces the
successful output `tw("a")` (the inner call is rewritten while the outer is
skipped with a warning), and re-running the engine on that output rewrites
again, producing `"a"` rather than the no-op result. -/
theorem c6_counterexample :
    (transformCode "tw(tw(\"a\"))" "f.ts" DEFAULT_BREAKPOINTS false).1 = some ⟨"tw(\"a\")"⟩
    ∧ (transformCode "tw(\"a\")" "f.ts" DEFAULT_BREAKPOINTS false).1 = some ⟨"\"a\""⟩ := by
  constructor
  · rfl
  · rfl

/-- Claim C6 (amended): re-running the engine on its own successful output
yields the no-op result provided the output contains no remaining calls to
the target identifier; a skipped matched call can leave a nested target call
in the output, in which case re-running rewrites further. -/
theorem c6_amended (c id : String) (bps : List String) (dbg : Bool) (out : TransformResult)
    (ast2 : Node) (h1 : (transformCode c id bps dbg).1 = some out)
    (h2 : parse out.code = Except.ok ast2)
    (h3 : ∀ n ∈ collectCalls ast2, isTwCall n = false) :
    (transformCode out.code id bps dbg).1 = none := by
  unfold transformCode
  rw [h2]
  exact transformCodeAst_no_tw out.code id bps ast2 h3

theorem c6_amended_witness :
    (transformCode "\"a\"" "f.ts" DEFAULT_BREAKPOINTS false).1 = none :=
  c6_amended "tw(\"a\")" "f.ts" DEFAULT_BREAKPOINTS false ⟨"\"a\""⟩ (Node.stringLit "a")
    (by rfl) (by rfl) (by intro n hn; simp [collectCalls] at hn)

/-- Claim C8 is false as stated: a matched call whose base extraction succeeds
but whose node has a null start offset produces no edit, yet it can still
produce a diagnostic — the console unknown-breakpoint warning is emitted by
the class-string composition before the offset check. -/
theorem c8_counterexample :
    processCall "f.ts" DEFAULT_BREAKPOINTS
        (Node.callExpr (Node.ident "tw")
          [Node.stringLit "a",
           Node.objectExpr [ObjectMember.objectProperty (Node.ident "xxl") (Node.stringLit "y")]]
          none (some 20)) =
      ([⟨Channel.console, unknownBreakpointMsg "xxl" DEFAULT_BREAKPOINTS, none⟩], none)
    ∧ ([⟨Channel.console, unknownBreakpointMsg "xxl" DEFAULT_BREAKPOINTS, none⟩] :
        List Diagnostic) ≠ [] := by
  constructor
  · rfl
  · exact List.cons_ne_nil _ _

/-- Claim C8 (amended): for every matched call whose base extraction succeeds
but whose node carries a null/undefined start or end offset, the engine
produces no edit and no callback-delivered diagnostic for that call (any
diagnostic it produces is a console unknown-breakpoint warning emitted before
the offset check), and calls that produce no edit never cause a non-no-op
result. -/
theorem c8_null_offsets (id : String) (bps : List String) :
    (∀ (a0 : Node) (rest : List Node) (s e : Option Nat) (base : String),
        extractStringLiteral (some a0) = some base →
        s = none ∨ e = none →
        (processCall id bps (Node.callExpr (Node.ident "tw") (a0 :: rest) s e)).2 = none
        ∧ ∀ d ∈ (processCall id bps (Node.callExpr (Node.ident "tw") (a0 :: rest) s e)).1,
            d.channel = Channel.console)
    ∧ (∀ (code id2 : String) (ast : Node),
        (∀ n ∈ collectCalls ast, (processCall id2 bps n).2 = none) →
        (transformCodeAst code id2 bps ast).1 = none) := by
  constructor
  · intro a0 rest s e base hx hs
    have hdm : ∀ d ∈ (processCall id bps (Node.callExpr (Node.ident "tw") (a0 :: rest) s e)).1,
        d.channel = Channel.console := by
      intro d hd
      have hmem : d ∈ (buildClassString base (responsiveOf rest) bps).2 := by
        cases s <;> cases e <;> simpa [processCall, isTwCallee, hx] using hd
      obtain ⟨bp, rfl⟩ := buildClassString_snd_mem base (responsiveOf rest) bps d hmem
      rfl
    refine ⟨?_, hdm⟩
    rcases hs with rfl | rfl
    · cases e <;> simp [processCall, isTwCallee, hx]
    · cases s <;> simp [processCall, isTwCallee, hx]
  · intro code id2 ast h
    exact transformCodeAst_no_edits code id2 bps ast h

theorem c8_witness :
    (processCall "f.ts" DEFAULT_BREAKPOINTS
        (Node.callExpr (Node.ident "tw") [Node.stringLit "a"] none (some 7))).2 = none
    ∧ ∀ d ∈ (processCall "f.ts" DEFAULT_BREAKPOINTS
        (Node.callExpr (Node.ident "tw") [Node.stringLit "a"] none (some 7))).1,
        d.channel = Channel.console :=
  (c8_null_offsets "f.ts" DEFAULT_BREAKPOINTS).1 (Node.stringLit "a") [] none (some 7) "a"
    rfl (Or.inl rfl)

/-- Claim C9: every produced edit's replacement text is exactly one double
quote, the composed class string, and one double quote, with no escaping — so
quote, backslash, or newline characters in the extracted literals are
inserted verbatim between the added delimiters. -/
theorem c9_replacement (id : String) (bps : List String) (a0 : Node) (rest : List Node)
    (s e : Nat) (base : String) (h : extractStringLiteral (some a0) = some base) :
    processCall id bps (Node.callExpr (Node.ident "tw") (a0 :: rest) (some s) (some e)) =
      ((buildClassString base (responsiveOf rest) bps).2,
        some ⟨s, e, "\"" ++ (buildClassString base (responsiveOf rest) bps).1 ++ "\""⟩) := by
  simp [processCall, isTwCallee, h]

theorem c9_witness :
    processCall "f.ts" DEFAULT_BREAKPOINTS
        (Node.callExpr (Node.ident "tw")
          [Node.templateLit [] [⟨"say \"hi\"", some "say \"hi\""⟩]] (some 0) (some 12)) =
      ([], some ⟨0, 12, "\"say \"hi\"\""⟩) := by
  rw [c9_replacement "f.ts" DEFAULT_BREAKPOINTS
    (Node.templateLit [] [⟨"say \"hi\"", some "say \"hi\""⟩]) [] 0 12 "say \"hi\"" rfl]
  rfl

end TwPlugin
